import Mathlib

/-
Verification of stem/connection.py: the ControlMessage parser, the reader
loop, the event-dispatch loop, the close sequence and the send path of
ControlConnection.  Python 2 byte strings are modelled as lists of
characters; file readline at EOF yields the empty string, modelled by an
exhausted line list.
-/

set_option maxRecDepth 4000

/-- Python 2 byte string, modelled as a list of characters. -/
abbrev PyStr := List Char

/-- The CRLF line terminator. -/
def CRLF : PyStr := ['\r', '\n']

/-- Python s.endswith(p): the last p.length characters of s equal p. -/
def pyEndsWith (s p : PyStr) : Bool :=
  s.drop (s.length - p.length) == p

/-- Python s.startswith(p): the first p.length characters of s equal p. -/
def pyStartsWith (s p : PyStr) : Bool :=
  s.take p.length == p

/-- Python list indexing, with negative indices counting from the end.
none models an IndexError. -/
def pyGet {α : Type} (l : List α) (i : Int) : Option α :=
  if i < 0 then
    if (l.length : Int) + i < 0 then none
    else l.get? ((l.length : Int) + i).toNat
  else l.get? i.toNat

/-- One parsed control line, the tuple (status code, divider, content)
stored in ControlMessage._lines. -/
structure CLine where
  status : PyStr
  divider : Char
  content : PyStr
deriving DecidableEq

/-- ControlMessage: the parsed lines plus the unparsed socket data. -/
structure ControlMessage where
  _lines : List CLine
  _raw_content : PyStr
deriving DecidableEq

/-- ControlMessage.get_status_code(line): status code of the indexed line.
The Python default argument is line = -1, the last line.  none models an
IndexError on an out-of-range index. -/
def ControlMessage.get_status_code (m : ControlMessage) (line : Int) : Option PyStr :=
  (pyGet m._lines line).map CLine.status

/-- ControlMessage.__iter__: the content of each line, each split on
newlines, status codes and dividers dropped. -/
def ControlMessage.iterLines (m : ControlMessage) : List PyStr :=
  m._lines.flatMap (fun l => List.splitOn '\n' l.content)

/-- ControlMessage.__str__: the newline join of list(self). -/
def ControlMessage.toPyStr (m : ControlMessage) : PyStr :=
  List.intercalate ['\n'] m.iterLines

/-- The exceptions that can escape one _read_message call.  The first three
are the ProtocolError raise sites of the source; indexError models the
Python IndexError raised by line[3] when the stripped line has fewer than
4 characters, which _read_message does not catch. -/
inductive ParseErr where
  | tooShort
  | noCRLF
  | unrecognizedDivider (d : Char) (line : PyStr)
  | indexError
deriving DecidableEq

/-- Whether the exception is a ProtocolError, the only class caught by the
reader loop. -/
def ParseErr.isProtocolError : ParseErr → Bool
  | .indexError => false
  | _ => true

/-- Result of the inner data-block loop: the extended content, the
accumulated raw text and the unread lines, or an escaping exception. -/
inductive DataRes where
  | ok (content raw : PyStr) (rest : List PyStr)
  | err (e : ParseErr) (rest : List PyStr)
deriving DecidableEq

/-- Result of one _read_message call: the message and the unread lines, or
an escaping exception together with the unread lines. -/
inductive MsgRes where
  | ok (msg : ControlMessage) (rest : List PyStr)
  | err (e : ParseErr) (rest : List PyStr)
deriving DecidableEq

/-- Python line[:-2]: strips the trailing CRLF. -/
def stripCRLF (line : PyStr) : PyStr := line.take (line.length - 2)

/-- Dot-stuffing removal inside a data block: if line.startswith(".."),
drop the first character. -/
def unstuff (l : PyStr) : PyStr :=
  if pyStartsWith l ['.', '.'] then l.drop 1 else l

/-- The inner while loop of the divider "+" branch of _read_message: pull
lines until the bare period line, unstuff each and append it to the content
with a newline separator.  An exhausted source models readline returning
the empty string, which fails the CRLF check. -/
def readDataBlock : List PyStr → PyStr → PyStr → DataRes
  | [], _content, _raw => .err .noCRLF []
  | line :: rest, content, raw =>
    if ¬ pyEndsWith line CRLF then .err .noCRLF rest
    else if line = ['.', '\r', '\n'] then .ok content (raw ++ line) rest
    else readDataBlock rest (content ++ '\n' :: unstuff (stripCRLF line)) (raw ++ line)

/-- The outer loop of _read_message over a fuel bound.  Each iteration
reads one line (EOF yields the empty string, shorter than 4 bytes), checks
length and CRLF termination, computes line[:3], line[3] and line[4:] (the
index line[3] raises IndexError when the stripped line is shorter than 4
characters) and branches on the divider exactly as the source does.  The
fuel only bounds the iteration count; read_message instantiates it with
src.length + 1, which a step count argument shows is never exhausted since
every iteration consumes at least one source line. -/
def read_message_aux : Nat → List PyStr → List CLine → PyStr → MsgRes
  | 0, src, _lines, _raw => .err .tooShort src
  | _fuel + 1, [], _lines, _raw => .err .tooShort []
  | fuel + 1, line :: rest, lines, raw =>
    if line.length < 4 then .err .tooShort rest
    else if ¬ pyEndsWith line CRLF then .err .noCRLF rest
    else
      match (stripCRLF line).get? 3 with
      | none => .err .indexError rest
      | some divider =>
        if divider = '-' then
          read_message_aux fuel rest
            (lines ++ [⟨(stripCRLF line).take 3, divider, (stripCRLF line).drop 4⟩])
            (raw ++ line)
        else if divider = ' ' then
          .ok ⟨lines ++ [⟨(stripCRLF line).take 3, divider, (stripCRLF line).drop 4⟩],
               raw ++ line⟩ rest
        else if divider = '+' then
          match readDataBlock rest ((stripCRLF line).drop 4) (raw ++ line) with
          | .err e rest2 => .err e rest2
          | .ok content2 raw2 rest2 =>
            read_message_aux fuel rest2
              (lines ++ [⟨(stripCRLF line).take 3, divider, content2⟩]) raw2
        else .err (.unrecognizedDivider divider (stripCRLF line)) rest

/-- ControlConnection._read_message: parse one complete control message
from the given socket lines. -/
def read_message (src : List PyStr) : MsgRes :=
  read_message_aux (src.length + 1) src [] []

/-- The observable state of the reader thread: the lifecycle flag, the
unread socket lines (EOF afterwards), the two queues, the list of logged
ProtocolErrors, whether an uncaught exception killed the thread, and
whether the while condition has failed so the loop exited. -/
structure ReaderState where
  _is_running : Bool
  src : List PyStr
  event_queue : List ControlMessage
  reply_queue : List ControlMessage
  logged : List ParseErr
  crashed : Bool
  exited : Bool
deriving DecidableEq

/-- One iteration of the body of _reader_loop: call _read_message, route an
event message (terminal status code 650) to the event queue and any other
message to the reply queue; a ProtocolError is logged and the loop
continues; any other exception is uncaught and kills the thread. -/
def reader_iteration (s : ReaderState) : ReaderState :=
  match read_message s.src with
  | .ok msg rest =>
    if msg.get_status_code (-1) = some ['6', '5', '0'] then
      { s with src := rest, event_queue := s.event_queue ++ [msg] }
    else
      { s with src := rest, reply_queue := s.reply_queue ++ [msg] }
  | .err e rest =>
    if e.isProtocolError then { s with src := rest, logged := s.logged ++ [e] }
    else { s with src := rest, crashed := true }

/-- ControlConnection._reader_loop, observed for a bounded number of
iterations: while is_running() holds, run one iteration; when the while
condition fails the loop exits; a crashed thread performs no further
iterations. -/
def reader_loop : Nat → ReaderState → ReaderState
  | 0, s => s
  | fuel + 1, s =>
    if ¬ s._is_running then { s with exited := true }
    else if s.crashed then s
    else reader_loop fuel (reader_iteration s)

/-- The observable state of the event-dispatch thread: the lifecycle flag,
the event queue, the messages handed to handle_event in order, and whether
the while condition has failed so the loop exited. -/
structure EventLoopState where
  _is_running : Bool
  event_queue : List ControlMessage
  delivered : List ControlMessage
  exited : Bool
deriving DecidableEq

/-- ControlConnection._event_loop, observed for a bounded number of
iterations: while is_running() holds, get_nowait either yields the next
queued message, which is handed to handle_event, or raises Queue.Empty and
the thread blocks in _event_cond.wait() until notified (the blocked state
is returned unchanged). When the while condition fails the loop exits. -/
def event_loop : Nat → EventLoopState → EventLoopState
  | 0, s => s
  | fuel + 1, s =>
    if ¬ s._is_running then { s with exited := true }
    else
      match s.event_queue with
      | e :: rest =>
        event_loop fuel { s with event_queue := rest, delivered := s.delivered ++ [e] }
      | [] => s

/-- The close() sequence as it affects the event-dispatch thread: close
sets _is_running to false, shuts and closes the socket, notifies
_event_cond so a blocked dispatcher wakes, and joins the event thread,
i.e. the dispatch loop then runs to completion. -/
def close_event_side (fuel : Nat) (s : EventLoopState) : EventLoopState :=
  event_loop fuel { s with _is_running := false }

/-- The attributes of ControlConnection that its constructor initializes
which bear on lifecycle: the running flag and whether each worker thread
has been started. -/
structure ConnState where
  _is_running : Bool
  event_thread_started : Bool
  reader_thread_started : Bool
deriving DecidableEq

/-- ControlConnection.__init__: sets _is_running to True, builds the
queues and conditions, and starts the event thread and the reader thread
before returning.  The class defines no connect method and no state
attribute beyond the boolean flag. -/
def ControlConnection_init : ConnState :=
  { _is_running := true, event_thread_started := true, reader_thread_started := true }

/-- ControlConnection.is_running: returns the _is_running flag. -/
def is_running (s : ConnState) : Bool := s._is_running

/-- The socket, lock and queue operations performed by ControlConnection.send,
in program order: acquire _socket_write_cond, write the normalized command,
flush, release _socket_write_cond, then block on _reply_queue.get(). -/
inductive SendStep where
  | acquire
  | write
  | flush
  | release
  | getReply
deriving DecidableEq

/-- The body of send as the sequence of its externally visible operations,
exactly in source order. -/
def sendProgram : List SendStep := [.acquire, .write, .flush, .release, .getReply]

/-- Shared state of a ControlConnection with several threads concurrently
inside send, plus the reader thread turning wire commands into queued
replies.  Commands and replies are abstracted to the id of the sending
thread: the reply matching the i-th written command carries the id of the
thread that wrote it, so correct pairing means every caller ends with its
own id.  pcs holds each send caller's index into sendProgram; results
holds the value each caller got back from _reply_queue.get(). -/
structure SendSys where
  lockOwner : Option Nat
  wire : List Nat
  delivered : Nat
  reply_queue : List Nat
  pcs : List Nat
  results : List (Option Nat)
deriving DecidableEq

/-- The initial state for n concurrent send callers: lock free, nothing
written, nothing delivered, every caller at the start of send. -/
def sendInit (n : Nat) : SendSys :=
  { lockOwner := none, wire := [], delivered := 0, reply_queue := [],
    pcs := List.replicate n 0, results := List.replicate n none }

/-- Thread t performs its next sendProgram step, when enabled: acquire
blocks while the lock is held, getReply blocks on an empty reply queue,
and release requires ownership (the Python release would raise otherwise).
none means the step is not enabled in this state. -/
def stepThread (t : Nat) (s : SendSys) : Option SendSys :=
  match s.pcs.get? t with
  | none => none
  | some pc =>
    match sendProgram.get? pc with
    | none => none
    | some .acquire =>
      match s.lockOwner with
      | none => some { s with lockOwner := some t, pcs := s.pcs.set t (pc + 1) }
      | some _ => none
    | some .write => some { s with wire := s.wire ++ [t], pcs := s.pcs.set t (pc + 1) }
    | some .flush => some { s with pcs := s.pcs.set t (pc + 1) }
    | some .release =>
      if s.lockOwner = some t then
        some { s with lockOwner := none, pcs := s.pcs.set t (pc + 1) }
      else none
    | some .getReply =>
      match s.reply_queue with
      | [] => none
      | r :: rest =>
        some { s with reply_queue := rest, results := s.results.set t (some r),
                      pcs := s.pcs.set t (pc + 1) }

/-- The reader thread enqueues the reply to the next written command; the
reply to the i-th command on the wire is put into _reply_queue i-th, in
wire order. -/
def stepDeliver (s : SendSys) : Option SendSys :=
  match s.wire.get? s.delivered with
  | none => none
  | some v => some { s with delivered := s.delivered + 1, reply_queue := s.reply_queue ++ [v] }

/-- One scheduling event: either send caller t runs its next step, or the
reader delivers the next reply. -/
inductive SysEvent where
  | thread (t : Nat)
  | deliver
deriving DecidableEq

/-- Effect of one scheduling event. -/
def stepEvent : SysEvent → SendSys → Option SendSys
  | .thread t, s => stepThread t s
  | .deliver, s => stepDeliver s

/-- Run a schedule: apply the events in order; the schedule is valid on the
start state when every event is enabled where it occurs. -/
def runSched : List SysEvent → SendSys → Option SendSys
  | [], s => some s
  | e :: es, s => (stepEvent e s).bind (runSched es)

/-- Thread t is inside the critical section of send: past acquire and not
yet past release. -/
@[reducible] def inCritical (s : SendSys) (t : Nat) : Prop :=
  ∃ pc, s.pcs[t]? = some pc ∧ 1 ≤ pc ∧ pc ≤ 3

/-- A concrete asynchronous event message, as parsed from the socket bytes
650 BW 10 20 CRLF. -/
def bwEvent : ControlMessage :=
  ⟨[⟨"650".toList, ' ', "BW 10 20".toList⟩], "650 BW 10 20\r\n".toList⟩

/-- A concrete reply message, as parsed from the socket bytes 250 OK CRLF. -/
def okReply : ControlMessage :=
  ⟨[⟨"250".toList, ' ', "OK".toList⟩], "250 OK\r\n".toList⟩

/-- A running reader whose socket will next yield an event message. -/
def readerS650 : ReaderState :=
  ⟨true, ["650 BW 10 20\r\n".toList], [], [], [], false, false⟩

/-- A running reader whose socket will next yield a reply message. -/
def readerS250 : ReaderState :=
  ⟨true, ["250 OK\r\n".toList], [], [], [], false, false⟩

/-- A running reader at transport EOF (every readline returns the empty
string) with one event already queued for dispatch. -/
def readerAtEOF : ReaderState :=
  ⟨true, [], [bwEvent], [], [], false, false⟩

theorem pyEndsWith_concat (a b : PyStr) : pyEndsWith (a ++ b) b = true := by
  simp [pyEndsWith, List.length_append, Nat.add_sub_cancel, List.drop_left]

theorem stripCRLF_concat (a : PyStr) : stripCRLF (a ++ CRLF) = a := by
  have h2 : (a ++ CRLF).length - 2 = a.length := by
    simp [List.length_append, CRLF]
  rw [stripCRLF, h2]
  exact List.take_left a CRLF

/-- C10: immediately after the ControlConnection constructor returns,
without any connect call, is_running() is true and both the reader thread
and the event-dispatch thread have been started; the connection is live
from construction. -/
theorem C10_live_from_construction :
    is_running ControlConnection_init = true ∧
    ControlConnection_init.event_thread_started = true ∧
    ControlConnection_init.reader_thread_started = true := by
  decide

/-- C2 fails on the code: close() sets _is_running to false and joins the
dispatcher, but _event_loop re-checks only is_running() at the top of its
loop, so a dispatcher that wakes with the flag already false exits without
draining the queue.  Here one event is in the Event Queue at the moment
close() is invoked, yet the dispatch loop exits with the event undelivered
and close() returns. -/
theorem C2_close_drops_queued_event :
    close_event_side 5 ⟨true, [bwEvent], [], false⟩ =
      ⟨false, [bwEvent], [], true⟩ := by
  decide

/-- C3 counterexample: at transport EOF the reader does not exit, no
SocketClosed (or anything else) is handed to a waiting send caller, and
the running flag never leaves true: each readline yields the empty string,
_read_message raises ProtocolError, and the reader loop logs it and
continues.  After five observed iterations the loop is still live. -/
theorem C3_reader_eof_counterexample :
    reader_loop 5 readerAtEOF =
      ⟨true, [], [bwEvent], [], List.replicate 5 .tooShort, false, false⟩ := by
  decide

/-- C3 amended: when the transport yields EOF the reader loop neither
exits nor transitions anything: _read_message turns the empty readline
into ProtocolError (too short), the loop logs it and continues
indefinitely, _is_running stays true, nothing is deposited for a waiting
send caller, and already-queued events are left in the Event Queue. -/
theorem C3_amended_reader_eof_spins (n : Nat) (s : ReaderState)
    (h1 : s.src = []) (h2 : s._is_running = true) (h3 : s.crashed = false) :
    reader_loop n s = { s with logged := s.logged ++ List.replicate n .tooShort } := by
  induction n generalizing s with
  | zero => simp [reader_loop]
  | succ n ih =>
    have hiter : reader_iteration s = { s with src := [], logged := s.logged ++ [.tooShort] } := by
      simp [reader_iteration, h1, read_message, read_message_aux, ParseErr.isProtocolError]
    rw [reader_loop, if_neg (by simp [h2]), if_neg (by simp [h3]), hiter,
        ih { s with src := [], logged := s.logged ++ [.tooShort] } rfl h2 h3]
    simp [List.replicate_succ, List.append_assoc, h1]

theorem C3_amended_reader_eof_spins_witness :
    reader_loop 3 readerAtEOF =
      { readerAtEOF with logged := readerAtEOF.logged ++ List.replicate 3 .tooShort } :=
  C3_amended_reader_eof_spins 3 readerAtEOF (by decide) (by decide) (by decide)

/-- C4: inside a data block, a line beginning with two periods contributes
the line minus its first period (so ..foo contributes .foo and ...
contributes ..), the bare period line terminates the block contributing
nothing, and each data line is appended to the content with a single
newline separator rather than CRLF. -/
theorem C4_dot_stuffing :
    (∀ (dl : PyStr) (rest : List PyStr) (content raw : PyStr),
      pyStartsWith dl ['.', '.'] = true →
      readDataBlock ((dl ++ CRLF) :: rest) content raw
        = readDataBlock rest (content ++ '\n' :: dl.drop 1) (raw ++ (dl ++ CRLF))) ∧
    (∀ (rest : List PyStr) (content raw : PyStr),
      readDataBlock ((['.'] ++ CRLF) :: rest) content raw
        = .ok content (raw ++ (['.'] ++ CRLF)) rest) ∧
    read_message ["250+x\r\n".toList, "..foo\r\n".toList, "...\r\n".toList, ".\r\n".toList,
        "250 OK\r\n".toList]
      = .ok ⟨[⟨"250".toList, '+', ("x\n.foo\n..").toList⟩, ⟨"250".toList, ' ', "OK".toList⟩],
            ("250+x\r\n..foo\r\n...\r\n.\r\n250 OK\r\n").toList⟩ [] := by
  refine ⟨?_, ?_, by decide⟩
  · intro dl rest content raw h
    have htake : dl.take 2 = ['.', '.'] := by simpa [pyStartsWith] using h
    have hlen : 2 ≤ dl.length := by
      have := List.length_take 2 dl
      rw [htake] at this
      simp at this
      omega
    have hne : ¬ (dl ++ CRLF) = ['.', '\r', '\n'] := by
      intro heq
      have := congrArg List.length heq
      simp [CRLF, List.length_append] at this
      omega
    rw [readDataBlock]
    rw [if_neg (by simp [pyEndsWith_concat]), if_neg hne, stripCRLF_concat]
    simp [unstuff, h]
  · intro rest content raw
    rw [readDataBlock]
    rw [if_neg (by decide), if_pos (by decide)]

theorem C4_dot_stuffing_witness :
    readDataBlock (("..foo".toList ++ CRLF) :: [".\r\n".toList]) "x".toList []
      = readDataBlock [".\r\n".toList] ("x".toList ++ '\n' :: "..foo".toList.drop 1)
          ([] ++ ("..foo".toList ++ CRLF)) :=
  C4_dot_stuffing.1 "..foo".toList [".\r\n".toList] "x".toList [] (by decide)

/-- C5: the reader loop routes every parsed message whose terminal line
has status code 650 to the Event Queue, and deposits every other message
into the reply queue for the pending send call. -/
theorem C5_event_routing (s : ReaderState) (msg : ControlMessage) (rest : List PyStr)
    (h : read_message s.src = .ok msg rest) :
    (msg.get_status_code (-1) = some ['6', '5', '0'] →
      reader_iteration s = { s with src := rest, event_queue := s.event_queue ++ [msg] }) ∧
    (msg.get_status_code (-1) ≠ some ['6', '5', '0'] →
      reader_iteration s = { s with src := rest, reply_queue := s.reply_queue ++ [msg] }) := by
  constructor <;> intro h650 <;> simp [reader_iteration, h, h650]

theorem C5_event_routing_witness :
    (reader_iteration readerS650
      = { readerS650 with src := [], event_queue := readerS650.event_queue ++ [bwEvent] }) ∧
    (reader_iteration readerS250
      = { readerS250 with src := [], reply_queue := readerS250.reply_queue ++ [okReply] }) :=
  ⟨(C5_event_routing readerS650 bwEvent [] (by decide)).1 (by decide),
   (C5_event_routing readerS250 okReply [] (by decide)).2 (by decide)⟩

/-- C6 counterexample: the length guard tests the raw line including its
CRLF, so the line consisting of 25 before CRLF (content two characters,
fewer than four) passes both checks and line[3] then raises an IndexError,
not a ProtocolError; and the quoted line 25 x before CRLF is long enough
to pass every check and reaches the divider branch, raising ProtocolError
for the unrecognized divider x rather than the claimed too-short error. -/
theorem C6_malformed_line_counterexample :
    read_message ["25\r\n".toList] = .err .indexError [] ∧
    ParseErr.isProtocolError .indexError = false ∧
    read_message ["25 x\r\n".toList] = .err (.unrecognizedDivider 'x' "25 x".toList) [] ∧
    ParseErr.unrecognizedDivider 'x' "25 x".toList ≠ .tooShort := by
  decide

/-- C6 amended: a raw line shorter than 4 bytes (CRLF included) raises
ProtocolError (too short) and a long-enough line not terminated by CRLF
raises ProtocolError (CRLF); but a CRLF-terminated line of 4 or 5 raw
bytes escapes with an uncaught IndexError, and the line 25 x CRLF raises
ProtocolError for its unrecognized divider, which the reader loop logs
before continuing so that the following well-formed reply still reaches
its caller. -/
theorem C6_amended_malformed_line :
    (∀ (line : PyStr) (rest : List PyStr), line.length < 4 →
      read_message (line :: rest) = .err .tooShort rest) ∧
    (∀ (line : PyStr) (rest : List PyStr), ¬ line.length < 4 →
      pyEndsWith line CRLF = false →
      read_message (line :: rest) = .err .noCRLF rest) ∧
    (∀ (line : PyStr) (rest : List PyStr), ¬ line.length < 4 →
      pyEndsWith line CRLF = true → (stripCRLF line).length < 4 →
      read_message (line :: rest) = .err .indexError rest) ∧
    reader_loop 2 ⟨true, ["25 x\r\n".toList, "250 OK\r\n".toList], [], [], [], false, false⟩
      = ⟨true, [], [], [okReply], [.unrecognizedDivider 'x' "25 x".toList], false, false⟩ := by
  refine ⟨?_, ?_, ?_, by decide⟩
  · intro line rest h
    simp [read_message, read_message_aux, h]
  · intro line rest h1 h2
    simp [read_message, read_message_aux, h1, h2]
  · intro line rest h1 h2 h3
    have hget : (stripCRLF line)[3]? = none := List.getElem?_eq_none (by omega)
    simp [read_message, read_message_aux, h1, h2, hget]

theorem C6_amended_malformed_line_witness :
    read_message ["2\r\n".toList] = .err .tooShort [] ∧
    read_message ["250 OK".toList] = .err .noCRLF [] ∧
    read_message ["25\r\n".toList] = .err .indexError [] ∧
    read_message ["250\r\n".toList] = .err .indexError [] :=
  ⟨C6_amended_malformed_line.1 "2\r\n".toList [] (by decide),
   C6_amended_malformed_line.2.1 "250 OK".toList [] (by decide) (by decide),
   C6_amended_malformed_line.2.2.1 "25\r\n".toList [] (by decide) (by decide) (by decide),
   C6_amended_malformed_line.2.2.1 "250\r\n".toList [] (by decide) (by decide) (by decide)⟩

/-- Structure of every successful parse: the returned message consists of
the accumulated lines, the lines appended during this call (each with
divider - or + and a three character status code), and one final line with
divider space and a three character status code. -/
theorem read_message_aux_ok_shape (fuel : Nat) :
    ∀ (src : List PyStr) (lines : List CLine) (raw : PyStr)
      (msg : ControlMessage) (rest : List PyStr),
      read_message_aux fuel src lines raw = .ok msg rest →
      ∃ mid lst, msg._lines = lines ++ mid ++ [lst] ∧
        lst.divider = ' ' ∧ lst.status.length = 3 ∧
        (∀ l ∈ mid, (l.divider = '-' ∨ l.divider = '+') ∧ l.status.length = 3) := by
  induction fuel with
  | zero =>
    intro src lines raw msg rest h
    simp [read_message_aux] at h
  | succ fuel ih =>
    intro src lines raw msg rest h
    cases src with
    | nil => simp [read_message_aux] at h
    | cons line rest1 =>
      rw [read_message_aux] at h
      by_cases hl4 : line.length < 4
      · rw [if_pos hl4] at h; exact MsgRes.noConfusion h
      rw [if_neg hl4] at h
      by_cases hcr : pyEndsWith line CRLF = true
      case neg => rw [if_pos (by simp [hcr])] at h; exact MsgRes.noConfusion h
      rw [if_neg (by simp [hcr])] at h
      cases hget : (stripCRLF line).get? 3 with
      | none => simp only [hget] at h; exact MsgRes.noConfusion h
      | some divider =>
        simp only [hget] at h
        have hlen3 : 3 < (stripCRLF line).length := by
          rcases List.get?_eq_some.mp hget with ⟨hlt, _⟩
          exact hlt
        have hst3 : ((stripCRLF line).take 3).length = 3 := by
          rw [List.length_take]
          exact Nat.min_eq_left (by omega)
        by_cases hd1 : divider = '-'
        · rw [if_pos hd1] at h
          obtain ⟨mid, lst, hlines, hsp, hst, hmid⟩ := ih _ _ _ _ _ h
          refine ⟨⟨(stripCRLF line).take 3, divider, (stripCRLF line).drop 4⟩ :: mid, lst,
            ?_, hsp, hst, ?_⟩
          · rw [hlines]; simp
          · intro l hl
            rcases List.mem_cons.mp hl with rfl | hl
            · exact ⟨Or.inl hd1, hst3⟩
            · exact hmid l hl
        rw [if_neg hd1] at h
        by_cases hd2 : divider = ' '
        · rw [if_pos hd2] at h
          injection h with h1 h2
          subst h1
          refine ⟨[], ⟨(stripCRLF line).take 3, divider, (stripCRLF line).drop 4⟩,
            by simp, hd2, hst3, by simp⟩
        rw [if_neg hd2] at h
        by_cases hd3 : divider = '+'
        · rw [if_pos hd3] at h
          cases hdb : readDataBlock rest1 ((stripCRLF line).drop 4) (raw ++ line) with
          | err e r2 => simp only [hdb] at h; exact MsgRes.noConfusion h
          | ok c2 r2 rest2 =>
            simp only [hdb] at h
            obtain ⟨mid, lst, hlines, hsp, hst, hmid⟩ := ih _ _ _ _ _ h
            refine ⟨⟨(stripCRLF line).take 3, divider, c2⟩ :: mid, lst, ?_, hsp, hst, ?_⟩
            · rw [hlines]; simp
            · intro l hl
              rcases List.mem_cons.mp hl with rfl | hl
              · exact ⟨Or.inr hd3, hst3⟩
              · exact hmid l hl
        rw [if_neg hd3] at h
        exact MsgRes.noConfusion h

/-- C7: every message produced by the parser has exactly one line with
divider space, it is the last line, and every earlier line has divider
minus or plus. -/
theorem C7_divider_invariant (src : List PyStr) (msg : ControlMessage) (rest : List PyStr)
    (h : read_message src = .ok msg rest) :
    msg._lines ≠ [] ∧
    msg._lines.countP (fun l => l.divider == ' ') = 1 ∧
    (∀ l ∈ msg._lines.dropLast, l.divider = '-' ∨ l.divider = '+') ∧
    (∀ l, msg._lines.getLast? = some l → l.divider = ' ') := by
  obtain ⟨mid, lst, hlines, hsp, hst, hmid⟩ :=
    read_message_aux_ok_shape _ _ _ _ _ _ (by simpa [read_message] using h)
  simp only [List.nil_append] at hlines
  have hmid0 : mid.countP (fun l => l.divider == ' ') = 0 :=
    List.countP_eq_zero.mpr (by
      intro a ha
      rcases (hmid a ha).1 with hd | hd <;> simp [hd])
  refine ⟨?_, ?_, ?_, ?_⟩
  · rw [hlines]; simp
  · rw [hlines, List.countP_append, hmid0, List.countP_cons]
    simp [hsp]
  · rw [hlines, List.dropLast_concat]
    exact fun l hl => (hmid l hl).1
  · rw [hlines, List.getLast?_concat]
    intro l hl
    injection hl with h2
    exact h2 ▸ hsp

theorem C7_divider_invariant_witness :
    okReply._lines ≠ [] ∧
    okReply._lines.countP (fun l => l.divider == ' ') = 1 ∧
    (∀ l ∈ okReply._lines.dropLast, l.divider = '-' ∨ l.divider = '+') ∧
    (∀ l, okReply._lines.getLast? = some l → l.divider = ' ') :=
  C7_divider_invariant ["250 OK\r\n".toList] okReply [] (by decide)

/-- C8 counterexample: the parser never checks that the status code is
made of digits; the line abc X CRLF parses successfully into a message
whose only status code is abc. -/
theorem C8_status_digits_counterexample :
    read_message ["abc X\r\n".toList]
      = .ok ⟨[⟨"abc".toList, ' ', "X".toList⟩], "abc X\r\n".toList⟩ [] ∧
    ("abc".toList.all Char.isDigit) = false := by
  decide

/-- C8 amended: every message produced by the parser has a status code of
exactly three characters on every line (the characters are the first three
of the stripped line and are not validated to be digits). -/
theorem C8_amended_status_three_chars (src : List PyStr) (msg : ControlMessage)
    (rest : List PyStr) (h : read_message src = .ok msg rest) :
    ∀ l ∈ msg._lines, l.status.length = 3 := by
  obtain ⟨mid, lst, hlines, hsp, hst, hmid⟩ :=
    read_message_aux_ok_shape _ _ _ _ _ _ (by simpa [read_message] using h)
  simp only [List.nil_append] at hlines
  intro l hl
  rw [hlines] at hl
  rcases List.mem_append.mp hl with hl | hl
  · exact (hmid l hl).2
  · rcases List.mem_singleton.mp hl with rfl
    exact hst

theorem C8_amended_status_three_chars_witness :
    (⟨"250".toList, ' ', "OK".toList⟩ : CLine).status.length = 3 :=
  C8_amended_status_three_chars ["250 OK\r\n".toList] okReply [] (by decide)
    ⟨"250".toList, ' ', "OK".toList⟩ (by decide)

theorem splitOn_ne_nil (x : Char) (s : List Char) : List.splitOn x s ≠ [] := by
  unfold List.splitOn
  exact List.splitOnP_ne_nil _ s

theorem intercalate_cons_of_ne_nil (x : Char) (a : List Char) (l : List (List Char))
    (h : l ≠ []) :
    List.intercalate [x] (a :: l) = a ++ x :: List.intercalate [x] l := by
  cases l with
  | nil => exact absurd rfl h
  | cons b t =>
    simp [List.intercalate, List.intersperse_cons_cons, List.flatten_cons]

theorem intercalate_append_of_ne_nil (x : Char) :
    ∀ (p q : List (List Char)), p ≠ [] → q ≠ [] →
      List.intercalate [x] (p ++ q)
        = List.intercalate [x] p ++ x :: List.intercalate [x] q := by
  intro p
  induction p with
  | nil => intro q h _; exact absurd rfl h
  | cons a p ih =>
    intro q _ hq
    cases p with
    | nil =>
      rw [show ([a] ++ q : List (List Char)) = a :: q from by simp,
          intercalate_cons_of_ne_nil x a q hq]
      simp [List.intercalate]
    | cons b p2 =>
      have hbp : (b :: p2 : List (List Char)) ≠ [] := by simp
      have hbpq : ((b :: p2) ++ q : List (List Char)) ≠ [] := by simp
      rw [List.cons_append, intercalate_cons_of_ne_nil x a _ hbpq,
          intercalate_cons_of_ne_nil x a _ hbp, ih q hbp hq]
      simp [List.append_assoc]

theorem intercalate_flatMap_splitOn (ls : List (List Char)) :
    List.intercalate ['\n'] (ls.flatMap fun s => List.splitOn '\n' s)
      = List.intercalate ['\n'] ls := by
  induction ls with
  | nil => simp
  | cons a ls ih =>
    cases ls with
    | nil =>
      rw [List.flatMap_cons]
      simp only [List.flatMap_nil, List.append_nil]
      rw [List.intercalate_splitOn]
      simp [List.intercalate]
    | cons b ls2 =>
      have h1 : List.splitOn '\n' a ≠ [] := splitOn_ne_nil '\n' a
      have h2 : ((b :: ls2).flatMap fun s => List.splitOn '\n' s) ≠ [] := by
        intro hc
        rw [List.flatMap_cons] at hc
        rcases List.append_eq_nil.mp hc with ⟨hb, _⟩
        exact splitOn_ne_nil '\n' b hb
      rw [List.flatMap_cons, intercalate_append_of_ne_nil '\n' _ _ h1 h2,
          List.intercalate_splitOn, ih, intercalate_cons_of_ne_nil '\n' a _ (by simp)]

/-- C9: the textual rendering of a message joins the content of its lines
with a newline, stripping status codes and dividers, and get_status_code
at the default index -1 returns the status code of the last line; in
particular the two socket lines 250-version=0.4.7.8 CRLF and 250 OK CRLF
parse into a two-line message rendering as version=0.4.7.8, newline, OK,
with status code 250. -/
theorem C9_str_and_status_code :
    (∀ msg : ControlMessage,
      msg.toPyStr = List.intercalate ['\n'] (msg._lines.map CLine.content)) ∧
    read_message ["250-version=0.4.7.8\r\n".toList, "250 OK\r\n".toList]
      = .ok ⟨[⟨"250".toList, '-', "version=0.4.7.8".toList⟩, ⟨"250".toList, ' ', "OK".toList⟩],
            ("250-version=0.4.7.8\r\n250 OK\r\n").toList⟩ [] ∧
    (ControlMessage.mk [⟨"250".toList, '-', "version=0.4.7.8".toList⟩,
        ⟨"250".toList, ' ', "OK".toList⟩] ("250-version=0.4.7.8\r\n250 OK\r\n").toList).toPyStr
      = ("version=0.4.7.8\nOK").toList ∧
    (ControlMessage.mk [⟨"250".toList, '-', "version=0.4.7.8".toList⟩,
        ⟨"250".toList, ' ', "OK".toList⟩]
        ("250-version=0.4.7.8\r\n250 OK\r\n").toList).get_status_code (-1)
      = some "250".toList ∧
    (ControlMessage.mk [⟨"250".toList, '-', "version=0.4.7.8".toList⟩,
        ⟨"250".toList, ' ', "OK".toList⟩]
        ("250-version=0.4.7.8\r\n250 OK\r\n").toList)._lines.length = 2 := by
  refine ⟨?_, by decide, by decide, by decide, by decide⟩
  intro msg
  rw [ControlMessage.toPyStr, ControlMessage.iterLines,
      show (msg._lines.flatMap fun l => List.splitOn '\n' l.content)
          = ((msg._lines.map CLine.content).flatMap fun s => List.splitOn '\n' s)
        from (List.flatMap_map _ _ _).symm,
      intercalate_flatMap_splitOn]


theorem sendProgram_get_eq (pc : Nat) (st : SendStep) (h : sendProgram[pc]? = some st) :
    (pc = 0 ∧ st = .acquire) ∨ (pc = 1 ∧ st = .write) ∨ (pc = 2 ∧ st = .flush) ∨
    (pc = 3 ∧ st = .release) ∨ (pc = 4 ∧ st = .getReply) := by
  rcases pc with _ | _ | _ | _ | _ | pc2 <;> simp_all [sendProgram]

theorem sendInv_init (n : Nat) :
    ∀ t, inCritical (sendInit n) t → (sendInit n).lockOwner = some t := by
  rintro t ⟨pc, hpc, hge, _hle⟩
  simp only [sendInit] at hpc
  have hpc0 : pc = 0 := List.eq_of_mem_replicate (List.getElem?_mem hpc)
  subst hpc0
  exact absurd hge (by decide)

theorem sendInv_step (e : SysEvent) (s s2 : SendSys)
    (h : stepEvent e s = some s2)
    (hinv : ∀ t, inCritical s t → s.lockOwner = some t) :
    ∀ t, inCritical s2 t → s2.lockOwner = some t := by
  cases e with
  | deliver =>
    cases hw : s.wire[s.delivered]? with
    | none => simp [stepEvent, stepDeliver, List.get?_eq_getElem?, hw] at h
    | some v =>
      simp only [stepEvent, stepDeliver, List.get?_eq_getElem?, hw] at h
      injection h with h
      subst h
      rintro t ⟨pc, hpc, hge, hle⟩
      exact hinv t ⟨pc, hpc, hge, hle⟩
  | thread t0 =>
    cases hpc0 : s.pcs[t0]? with
    | none => simp [stepEvent, stepThread, List.get?_eq_getElem?, hpc0] at h
    | some pc0 =>
      have hlen : t0 < s.pcs.length := (List.getElem?_eq_some.mp hpc0).1
      cases hprog : sendProgram[pc0]? with
      | none => simp [stepEvent, stepThread, List.get?_eq_getElem?, hpc0, hprog] at h
      | some st =>
        cases st with
        | acquire =>
          cases hlock : s.lockOwner with
          | some w => simp [stepEvent, stepThread, List.get?_eq_getElem?, hpc0, hprog, hlock] at h
          | none =>
            simp only [stepEvent, stepThread, List.get?_eq_getElem?, hpc0, hprog, hlock] at h
            injection h with h
            subst h
            rintro u ⟨pc, hpc, hge, hle⟩
            by_cases hu : t0 = u
            · subst hu; rfl
            · rw [List.getElem?_set, if_neg hu] at hpc
              have hcontra := hinv u ⟨pc, hpc, hge, hle⟩
              rw [hlock] at hcontra
              exact Option.noConfusion hcontra
        | write =>
          simp only [stepEvent, stepThread, List.get?_eq_getElem?, hpc0, hprog] at h
          injection h with h
          subst h
          have hpc1 : pc0 = 1 := by
            rcases sendProgram_get_eq pc0 .write hprog with
              ⟨_, h2⟩ | ⟨h1, _⟩ | ⟨_, h2⟩ | ⟨_, h2⟩ | ⟨_, h2⟩ <;>
              first | exact h1 | exact absurd h2 (by decide)
          subst hpc1
          rintro u ⟨pc, hpc, hge, hle⟩
          by_cases hu : t0 = u
          · subst hu
            exact hinv t0 ⟨1, hpc0, Nat.le_refl 1, by decide⟩
          · rw [List.getElem?_set, if_neg hu] at hpc
            exact hinv u ⟨pc, hpc, hge, hle⟩
        | flush =>
          simp only [stepEvent, stepThread, List.get?_eq_getElem?, hpc0, hprog] at h
          injection h with h
          subst h
          have hpc2 : pc0 = 2 := by
            rcases sendProgram_get_eq pc0 .flush hprog with
              ⟨_, h2⟩ | ⟨_, h2⟩ | ⟨h1, _⟩ | ⟨_, h2⟩ | ⟨_, h2⟩ <;>
              first | exact h1 | exact absurd h2 (by decide)
          subst hpc2
          rintro u ⟨pc, hpc, hge, hle⟩
          by_cases hu : t0 = u
          · subst hu
            exact hinv t0 ⟨2, hpc0, by decide, by decide⟩
          · rw [List.getElem?_set, if_neg hu] at hpc
            exact hinv u ⟨pc, hpc, hge, hle⟩
        | release =>
          by_cases hlock : s.lockOwner = some t0
          · simp only [stepEvent, stepThread, List.get?_eq_getElem?, hpc0, hprog, if_pos hlock] at h
            injection h with h
            subst h
            have hpc3 : pc0 = 3 := by
              rcases sendProgram_get_eq pc0 .release hprog with
                ⟨_, h2⟩ | ⟨_, h2⟩ | ⟨_, h2⟩ | ⟨h1, _⟩ | ⟨_, h2⟩ <;>
                first | exact h1 | exact absurd h2 (by decide)
            subst hpc3
            rintro u ⟨pc, hpc, hge, hle⟩
            by_cases hu : t0 = u
            · subst hu
              rw [List.getElem?_set, if_pos rfl, if_pos hlen] at hpc
              injection hpc with hpc
              exact absurd hle (by omega)
            · rw [List.getElem?_set, if_neg hu] at hpc
              have hcontra := hinv u ⟨pc, hpc, hge, hle⟩
              rw [hlock] at hcontra
              injection hcontra with hcontra
              exact absurd hcontra hu
          · simp [stepEvent, stepThread, List.get?_eq_getElem?, hpc0, hprog, hlock] at h
        | getReply =>
          cases hq : s.reply_queue with
          | nil => simp [stepEvent, stepThread, List.get?_eq_getElem?, hpc0, hprog, hq] at h
          | cons r rq =>
            simp only [stepEvent, stepThread, List.get?_eq_getElem?, hpc0, hprog, hq] at h
            injection h with h
            subst h
            have hpc4 : pc0 = 4 := by
              rcases sendProgram_get_eq pc0 .getReply hprog with
                ⟨_, h2⟩ | ⟨_, h2⟩ | ⟨_, h2⟩ | ⟨_, h2⟩ | ⟨h1, _⟩ <;>
                first | exact h1 | exact absurd h2 (by decide)
            subst hpc4
            rintro u ⟨pc, hpc, hge, hle⟩
            by_cases hu : t0 = u
            · subst hu
              rw [List.getElem?_set, if_pos rfl, if_pos hlen] at hpc
              injection hpc with hpc
              exact absurd hle (by omega)
            · rw [List.getElem?_set, if_neg hu] at hpc
              exact hinv u ⟨pc, hpc, hge, hle⟩

theorem sendInv_run :
    ∀ (events : List SysEvent) (s s2 : SendSys),
      runSched events s = some s2 →
      (∀ t, inCritical s t → s.lockOwner = some t) →
      ∀ t, inCritical s2 t → s2.lockOwner = some t := by
  intro events
  induction events with
  | nil =>
    intro s s2 h hinv
    rw [runSched] at h
    injection h with h
    subst h
    exact hinv
  | cons e es ih =>
    intro s s2 h hinv
    cases hstep : stepEvent e s with
    | none => rw [runSched, hstep] at h; simp at h
    | some s1 =>
      rw [runSched, hstep, Option.some_bind] at h
      exact ih s1 s2 h (sendInv_step e s s1 hstep hinv)

/-- C1 counterexample: send releases _socket_write_cond right after the
flush and only then blocks on _reply_queue.get(), so the lock is not held
until the reply arrives and replies can cross callers.  First run: after
thread 0 executes acquire, write, flush and release, it has written its
command (wire holds thread 0) and received nothing, yet the lock is free.
Second run: thread 0 writes the first command and thread 1 the second;
the reader delivers the matching replies in wire order; thread 1 then
dequeues first and obtains the reply to the first command while thread 0
is handed the reply to the second, so the i-th reply is not returned to
the caller of the i-th command. -/
theorem C1_reply_crossing_counterexample :
    (runSched [.thread 0, .thread 0, .thread 0, .thread 0] (sendInit 2)
      = some { lockOwner := none, wire := [0], delivered := 0, reply_queue := [],
               pcs := [4, 0], results := [none, none] }) ∧
    (runSched [.thread 0, .thread 0, .thread 0, .thread 0,
               .thread 1, .thread 1, .thread 1, .thread 1,
               .deliver, .deliver, .thread 1, .thread 0] (sendInit 2)
      = some { lockOwner := none, wire := [0, 1], delivered := 2, reply_queue := [],
               pcs := [5, 5], results := [some 1, some 0] }) := by
  decide

/-- C1 amended: the writer lock is held exactly over the write and flush
of the command bytes, one writer at a time: in every state reachable from
the initial state under any schedule, a thread that is past acquire and
not yet past release is the unique lock owner.  The lock is however
released before send blocks on the reply queue (release is step 3 of the
send program, the reply dequeue step 4), so the pairing of the i-th reply
with the i-th written command is not enforced. -/
theorem C1_amended_writer_gate (n : Nat) (events : List SysEvent) (s : SendSys)
    (h : runSched events (sendInit n) = some s) :
    (∀ t, inCritical s t → s.lockOwner = some t) ∧
    (∀ t u, inCritical s t → inCritical s u → t = u) ∧
    sendProgram[1]? = some .write ∧ sendProgram[2]? = some .flush ∧
    sendProgram[3]? = some .release ∧ sendProgram[4]? = some .getReply := by
  have hinv : ∀ t, inCritical s t → s.lockOwner = some t :=
    sendInv_run events (sendInit n) s h (sendInv_init n)
  refine ⟨hinv, ?_, rfl, rfl, rfl, rfl⟩
  intro t u ht hu
  have h1 := hinv t ht
  have h2 := hinv u hu
  rw [h1] at h2
  injection h2

theorem C1_amended_writer_gate_witness :
    (∀ t, inCritical ⟨some 0, [], 0, [], [1, 0], [none, none]⟩ t →
      (⟨some 0, [], 0, [], [1, 0], [none, none]⟩ : SendSys).lockOwner = some t) ∧
    (∀ t u, inCritical ⟨some 0, [], 0, [], [1, 0], [none, none]⟩ t →
      inCritical ⟨some 0, [], 0, [], [1, 0], [none, none]⟩ u → t = u) ∧
    sendProgram[1]? = some .write ∧ sendProgram[2]? = some .flush ∧
    sendProgram[3]? = some .release ∧ sendProgram[4]? = some .getReply :=
  C1_amended_writer_gate 2 [.thread 0]
    ⟨some 0, [], 0, [], [1, 0], [none, none]⟩ (by decide)
